import Mathlib

/-!
# A model of `mfs/file.go`

The Go type `File` and its methods `NewFile`, `Open`, `Size`, `GetNode`,
`Flush`, `Sync` and `Type` are translated into state-passing functions.

* A method with receiver `fi *File` becomes a function of the pointee state
  `fi : File` (and, where the pointer itself is stored, of the pointer
  `self : FilePtr`), returning an `Outcome`: the call returns with a new state
  and a result, or it waits on a lock that is not available, or it stops with
  a Go run-time error.
* `sync.RWMutex` is modelled by its documented contract: a flag for the
  writer and a count of readers.
* The collaborators (metadata decoders, the content-editor factory, the
  editor's commit) are parameters, collected in `Env`.
-/

namespace Mfs

/-! ## Data model -/

/-- Byte slices (`[]byte`). -/
abbrev Bytes := List UInt8

/-- Error values (`error`). An error is identified by where it was created:
`errorf msg` is the value built by a `fmt.Errorf(msg)` call of `file.go`,
`collaborator code` is an error value handed back by a collaborator. -/
inductive Error where
  | errorf (msg : String)
  | collaborator (code : Nat)
deriving DecidableEq, Repr

/-- The spec's `InvalidFlags`: the error built at `file.go` line 61. -/
def InvalidFlags : Error := .errorf "file opened for neither reading nor writing"

/-- The spec's `UnsupportedNodeKind`: the error built at `file.go` line 77. -/
def UnsupportedNodeKind : Error := .errorf "unsupported fsnode type for \x27file\x27"

/-- The spec's `UnsupportedFeature`: the error built at `file.go` line 79. -/
def UnsupportedFeature : Error := .errorf "symlinks not yet supported"

/-- The spec's `UnrecognizedNodeType`: the error built at `file.go` line 114. -/
def UnrecognizedNodeType : Error := .errorf "unrecognized node type in mfs/file.Size()"

/-- Modelled from the spec: the kinds a node's metadata can declare ("file",
"raw content", symlink, directory, metadata, ...), the constants `ft.TRaw`,
`ft.TFile`, `ft.TSymlink`, ... of type `pb.Data_DataType`, declared outside
`file.go`. -/
inductive DataType where
  | TRaw
  | TDirectory
  | TFile
  | TMetadata
  | TSymlink
  | THAMTShard
deriving DecidableEq, Repr

/-- Modelled from the spec: the decoded metadata `Open` looks at, the result of
`ft.FSNodeFromBytes` (declared outside `file.go`), of which `Open` reads the
field `Type`, the declared kind. -/
structure FSNode where
  Typ : DataType
deriving DecidableEq, Repr

/-- Modelled from the spec: the decoded metadata of the Metadata Decoder
("decode(node bytes) → {kind, length}"), the result of `ft.FromBytes`;
`Filesize` is the declared byte length, an unsigned 64-bit field. -/
structure Data where
  Typ : DataType
  Filesize : Nat
deriving DecidableEq, Repr

/-- Modelled from the spec: `pbd.GetFilesize()`, the declared byte length as a
`uint64`. -/
def Data.GetFilesize (d : Data) : Nat := d.Filesize % 2 ^ 64

/-- The conversion `int64(x)` of a `uint64` value: the same 64 bits read as a
two's complement number. -/
def int64 (x : Nat) : Int :=
  if x % 2 ^ 64 < 2 ^ 63 then ((x % 2 ^ 64 : Nat) : Int) else ((x % 2 ^ 64 : Nat) : Int) - 2 ^ 64

/-- The builtin `len` of a byte slice. Its result is a Go `int`, which is never
negative and never exceeds the largest `int64`, so the conversion
`int64(len(b))` keeps the value. -/
def len (b : Bytes) : Int := Int.ofNat b.length

/-- Modelled from the spec: a structured node (`*dag.ProtoNode`, declared
outside `file.go`). What `file.go` reads of it is its data bytes (`Data()`)
and the version of its content identifier (`Cid().Prefix().Version`). -/
structure ProtoNode where
  Data : Bytes
  cidVersion : Nat
deriving DecidableEq, Repr

/-- Modelled from the spec: a raw-leaf node (`*dag.RawNode`, declared outside
`file.go`): its bytes (`RawData()`) and the version of its content
identifier. -/
structure RawNode where
  RawData : Bytes
  cidVersion : Nat
deriving DecidableEq, Repr

/-- A non-nil value of the interface `node.Node`, by dynamic type, as the type
switches of `file.go` tell them apart: `*dag.ProtoNode`, `*dag.RawNode`, or
any other implementation (named by a tag). -/
inductive Node where
  | ProtoNode (nd : Mfs.ProtoNode)
  | RawNode (nd : Mfs.RawNode)
  | other (tag : Nat) (cidVersion : Nat)
deriving DecidableEq, Repr

/-- The value of `node.Cid().Prefix().Version`. -/
def Node.cidVersion : Node → Nat
  | .ProtoNode nd => nd.cidVersion
  | .RawNode nd => nd.cidVersion
  | .other _ v => v

/-- Modelled from the spec: the Node Store (`dag.DAGService`, declared outside
`file.go`), which `file.go` only passes on; named by a handle. -/
structure DAGService where
  handle : Nat
deriving DecidableEq, Repr

/-- Modelled from the spec: the Parent Notifier (`childCloser`, declared
outside `file.go`), which `file.go` only stores; named by a handle. -/
structure childCloser where
  handle : Nat
deriving DecidableEq, Repr

/-- Modelled from the spec: the Content Editor (`*mod.DagModifier`, declared
outside `file.go`). `file.go` writes its field `RawLeaves`; the rest of its
state is kept as built by the factory. -/
structure DagModifier where
  curNode : Node
  dagserv : DAGService
  RawLeaves : Bool
  rest : Nat
deriving DecidableEq, Repr

/-- Modelled from the spec: the open flags ("flags: {read, write, sync}"), the
struct `Flags` declared outside `file.go`. -/
structure Flags where
  Read : Bool
  Write : Bool
  Sync : Bool
deriving DecidableEq, Repr

/-- Modelled from the spec: the tag `Type()` returns (`NodeType`, declared
outside `file.go`). -/
inductive NodeType where
  | TFile
  | TDir
deriving DecidableEq, Repr

/-! ## Locks -/

/-- The state of a `sync.RWMutex` of the Go standard library, after its
documented contract: whether it is locked for writing, and how many read locks
are held. -/
structure RWMutex where
  writer : Bool
  readers : Nat
deriving DecidableEq, Repr

/-- The zero value of `sync.RWMutex`: an unlocked mutex. -/
def RWMutex.zero : RWMutex := { writer := false, readers := 0 }

/-- The lock is taken for writing: `Lock` gets through when the mutex is held
by nobody; `none` when the caller has to wait. -/
def RWMutex.Lock (rw : RWMutex) : Option RWMutex :=
  if rw.writer = false ∧ rw.readers = 0 then some { writer := true, readers := 0 } else none

/-- The lock is taken for reading: `RLock` gets through unless the mutex is
locked for writing; `none` when the caller has to wait. -/
def RWMutex.RLock (rw : RWMutex) : Option RWMutex :=
  if rw.writer = false then some { rw with readers := rw.readers + 1 } else none

/-- The write lock is released: `Unlock`. "It is a run-time error if rw is not
locked for writing on entry to Unlock." -/
def RWMutex.Unlock (rw : RWMutex) : Except String RWMutex :=
  if rw.writer = true then .ok { rw with writer := false }
  else .error "sync: Unlock of unlocked RWMutex"

/-- One read lock is released: `RUnlock`. "It is a run-time error if rw is not
locked for reading on entry to RUnlock." -/
def RWMutex.RUnlock (rw : RWMutex) : Except String RWMutex :=
  if rw.writer = false ∧ 0 < rw.readers then .ok { rw with readers := rw.readers - 1 }
  else .error "sync: RUnlock of unlocked RWMutex"

/-! ## The file entity -/

/-- The struct `File`. -/
structure File where
  parent : childCloser
  name : String
  desclock : RWMutex
  dserv : DAGService
  node : Node
  nodelk : RWMutex
  RawLeaves : Bool
deriving DecidableEq, Repr

/-- A pointer to a `File` (`*File`). -/
structure FilePtr where
  addr : Nat
deriving DecidableEq, Repr

/-- The struct `fileDescriptor` (declared outside `file.go`), with the three
fields the composite literal of `Open` (lines 93-97) sets. -/
structure fileDescriptor where
  inode : FilePtr
  flags : Flags
  mod : DagModifier
deriving DecidableEq, Repr

/-- What a call does: it returns in state `s` with result `a`, or it waits on a
lock that is not available, or it stops with a Go run-time error. -/
inductive Outcome (σ α : Type) where
  | returns (s : σ) (a : α)
  | blocks
  | runtimeError (msg : String)
deriving DecidableEq, Repr

/-- The collaborators of `file.go`. A collaborator hands back a value or an
error, given here by its code. `NewDagModifier node dserv` stands for
`mod.NewDagModifier(context.TODO(), node, dserv, chunk.DefaultSplitter)`;
`commit` is the content editor's commit operation, used by the descriptor. -/
structure Env where
  FSNodeFromBytes : Bytes → Except Nat FSNode
  FromBytes : Bytes → Except Nat Data
  NewDagModifier : Node → DAGService → Except Nat DagModifier
  commit : DagModifier → Except Nat Node

/-- The function `NewFile` (lines 32-43). The locks start as zero values. -/
def NewFile (name : String) (node : Node) (parent : childCloser) (dserv : DAGService) :
    File × Option Error :=
  let fi : File :=
    { dserv := dserv, parent := parent, name := name, node := node,
      desclock := RWMutex.zero, nodelk := RWMutex.zero, RawLeaves := false }
  let fi := if node.cidVersion > 0 then { fi with RawLeaves := true } else fi
  (fi, none)

/-- The type switch of `Open` (lines 68-85): `some err` when `Open` returns
`nil, err` from inside the switch, `none` when control falls through to the
construction of the editor. -/
def File.Open.typeSwitch (env : Env) (node : Node) : Option Error :=
  match node with
  | .ProtoNode nd =>
    match env.FSNodeFromBytes nd.Data with
    | .error code => some (.collaborator code)
    | .ok fsn =>
      match fsn.Typ with
      | .TSymlink => some (.errorf "symlinks not yet supported")
      | .TFile => none
      | .TRaw => none
      | _ => some (.errorf "unsupported fsnode type for \x27file\x27")
  | .RawNode _ => none
  | .other _ _ => none

/-- The body of `Open` after the descriptor lock is taken (lines 64-97). -/
def File.Open.body (env : Env) (self : FilePtr) (fi : File) (flags : Flags) :
    Outcome File (Option fileDescriptor × Option Error) :=
  match fi.nodelk.RLock with
  | none => .blocks
  | some lk =>
    let node := fi.node
    match lk.RUnlock with
    | .error msg => .runtimeError msg
    | .ok lk =>
      let fi := { fi with nodelk := lk }
      match File.Open.typeSwitch env node with
      | some err => .returns fi (none, some err)
      | none =>
        match env.NewDagModifier node fi.dserv with
        | .error code => .returns fi (none, some (.collaborator code))
        | .ok dmod =>
          let dmod := { dmod with RawLeaves := fi.RawLeaves }
          .returns fi (some { inode := self, flags := flags, mod := dmod }, none)

/-- A deferred closure of `Open`, `if _retErr != nil { unlock }`, run when the
body returns. -/
def File.Open.deferred (unlock : RWMutex → Except String RWMutex)
    (o : Outcome File (Option fileDescriptor × Option Error)) :
    Outcome File (Option fileDescriptor × Option Error) :=
  match o with
  | .returns fi (fd, some err) =>
    match unlock fi.desclock with
    | .ok lk => .returns { fi with desclock := lk } (fd, some err)
    | .error msg => .runtimeError msg
  | o => o

/-- The method `Open` (lines 45-98). Both deferred closures call `Unlock`
(lines 50 and 57). -/
def File.Open (env : Env) (self : FilePtr) (fi : File) (flags : Flags) :
    Outcome File (Option fileDescriptor × Option Error) :=
  if flags.Write = true then
    match fi.desclock.Lock with
    | none => .blocks
    | some lk =>
      File.Open.deferred RWMutex.Unlock (File.Open.body env self { fi with desclock := lk } flags)
  else if flags.Read = true then
    match fi.desclock.RLock with
    | none => .blocks
    | some lk =>
      File.Open.deferred RWMutex.Unlock (File.Open.body env self { fi with desclock := lk } flags)
  else
    .returns fi (none, some (.errorf "file opened for neither reading nor writing"))

/-- The pair `Open` returns once the locks are passed (lines 68-97): the error
of the type switch, or the error of the factory, or the descriptor around the
editor. A reading of `Open.body` without the node lock, used to state lemmas. -/
def File.Open.result (env : Env) (self : FilePtr) (fi : File) (flags : Flags) :
    Option fileDescriptor × Option Error :=
  match File.Open.typeSwitch env fi.node with
  | some err => (none, some err)
  | none =>
    match env.NewDagModifier fi.node fi.dserv with
    | .error code => (none, some (.collaborator code))
    | .ok dmod =>
      (some { inode := self, flags := flags, mod := { dmod with RawLeaves := fi.RawLeaves } }, none)

/-- The type switch of `Size` (lines 104-115): the pair `Size` returns. -/
def File.Size.typeSwitch (env : Env) (node : Node) : Int × Option Error :=
  match node with
  | .ProtoNode nd =>
    match env.FromBytes nd.Data with
    | .error code => (0, some (.collaborator code))
    | .ok pbd => (int64 pbd.GetFilesize, none)
  | .RawNode nd => (len nd.RawData, none)
  | .other _ _ => (0, some (.errorf "unrecognized node type in mfs/file.Size()"))

/-- The method `Size` (lines 101-116): the node lock is read-locked, and
read-unlocked by the deferred call. -/
def File.Size (env : Env) (fi : File) : Outcome File (Int × Option Error) :=
  match fi.nodelk.RLock with
  | none => .blocks
  | some lk =>
    let fi := { fi with nodelk := lk }
    let res := File.Size.typeSwitch env fi.node
    match fi.nodelk.RUnlock with
    | .error msg => .runtimeError msg
    | .ok lk => .returns { fi with nodelk := lk } res

/-- The method `GetNode` (lines 119-123). -/
def File.GetNode (fi : File) : Outcome File (Node × Option Error) :=
  match fi.nodelk.RLock with
  | none => .blocks
  | some lk =>
    let fi := { fi with nodelk := lk }
    let res : Node × Option Error := (fi.node, none)
    match fi.nodelk.RUnlock with
    | .error msg => .runtimeError msg
    | .ok lk => .returns { fi with nodelk := lk } res

/-- The methods of the interface `FileDescriptor` that `File.Flush` calls, as
functions of the descriptor and the state of the file it points to. -/
structure FdMethods where
  Flush : fileDescriptor → File → Outcome File (Option Error)
  Close : fileDescriptor → File → Outcome File (Option Error)

/-- The flags `File.Flush` opens with: `Flags{Write: true, Sync: true}`. -/
def flushFlags : Flags := { Write := true, Sync := true, Read := false }

/-- The method `Flush` (lines 125-135): `Open`, then `fd.Flush()`, then the
`fd.Close()` that line 132 defers; the result of `Close` is dropped. -/
def File.Flush (env : Env) (m : FdMethods) (self : FilePtr) (fi : File) :
    Outcome File (Option Error) :=
  match File.Open env self fi { Write := true, Sync := true, Read := false } with
  | .blocks => .blocks
  | .runtimeError msg => .runtimeError msg
  | .returns fi (_, some err) => .returns fi (some err)
  | .returns _ (none, none) => .runtimeError "invalid memory address or nil pointer dereference"
  | .returns fi (some fd, none) =>
    match m.Flush fd fi with
    | .blocks => .blocks
    | .runtimeError msg => .runtimeError msg
    | .returns fi res =>
      match m.Close fd fi with
      | .blocks => .blocks
      | .runtimeError msg => .runtimeError msg
      | .returns fi _ => .returns fi res

/-- The method `Sync` (lines 137-142). -/
def File.Sync (fi : File) : Outcome File (Option Error) :=
  match fi.desclock.Lock with
  | none => .blocks
  | some lk =>
    match lk.Unlock with
    | .error msg => .runtimeError msg
    | .ok lk => .returns { fi with desclock := lk } none

/-- The method `Type` (lines 145-147): it returns the constant `TFile` and
touches nothing. -/
def File.TypeOf (fi : File) : Outcome File NodeType := .returns fi NodeType.TFile

/-! ## The descriptor -/

/-- Modelled from the spec: the commit a descriptor performs (its code,
`fd.go`, is not among the sources). §4.2: "commit pending changes, replace the
File Entity's node reference with the result (under exclusive node-lock), and
notify the Parent Notifier that the file's root changed". A failed commit
leaves the node reference as it was and its error is the result. -/
def fileDescriptor.commit (env : Env) (fd : fileDescriptor) (fi : File) :
    Outcome File (Option Error) :=
  match env.commit fd.mod with
  | .error code => .returns fi (some (.collaborator code))
  | .ok nd =>
    match fi.nodelk.Lock with
    | none => .blocks
    | some lk =>
      match lk.Unlock with
      | .error msg => .runtimeError msg
      | .ok lk => .returns { fi with node := nd, nodelk := lk } none

/-- Modelled from the spec: the descriptor's flush. §4.2: "Flush without
close: force a commit and node-reference replacement without releasing the
descriptor lock". -/
def fileDescriptor.Flush (env : Env) (fd : fileDescriptor) (fi : File) :
    Outcome File (Option Error) :=
  fileDescriptor.commit env fd fi

/-- Modelled from the spec: the release of the descriptor lock at close, in
the mode `Open` acquired it: exclusive when the descriptor was opened with
write, shared otherwise. -/
def fileDescriptor.release (fd : fileDescriptor) (rw : RWMutex) : Except String RWMutex :=
  if fd.flags.Write = true then rw.Unlock else rw.RUnlock

/-- Modelled from the spec: the descriptor's close. §4.2: "On descriptor
close: if opened for write, commit pending changes [...]. Regardless of open
mode, release the descriptor lock acquired by Open exactly once." -/
def fileDescriptor.Close (env : Env) (fd : fileDescriptor) (fi : File) :
    Outcome File (Option Error) :=
  match (if fd.flags.Write = true then fileDescriptor.commit env fd fi else .returns fi none) with
  | .blocks => .blocks
  | .runtimeError msg => .runtimeError msg
  | .returns fi res =>
    match fileDescriptor.release fd fi.desclock with
    | .error msg => .runtimeError msg
    | .ok lk => .returns { fi with desclock := lk } res

/-- Modelled from the spec: the descriptor of §4.2 as the methods `File.Flush`
calls. -/
def specDescriptor (env : Env) : FdMethods :=
  { Flush := fileDescriptor.Flush env, Close := fileDescriptor.Close env }

/-- A descriptor's `Close` releases the descriptor lock once, in the mode its
`Open` acquired it, whenever it returns. -/
def FdMethods.ClosesOnce (m : FdMethods) : Prop :=
  ∀ (fd : fileDescriptor) (fi fi' : File) (res : Option Error),
    m.Close fd fi = .returns fi' res → fileDescriptor.release fd fi.desclock = .ok fi'.desclock

/-- A descriptor's `Flush` leaves the descriptor lock as it is. -/
def FdMethods.FlushKeepsLock (m : FdMethods) : Prop :=
  ∀ (fd : fileDescriptor) (fi fi' : File) (res : Option Error),
    m.Flush fd fi = .returns fi' res → fi'.desclock = fi.desclock

/-- A descriptor's methods do not write the field `RawLeaves` of the file. -/
def FdMethods.KeepsRawLeaves (m : FdMethods) : Prop :=
  ∀ (fd : fileDescriptor) (fi fi' : File) (res : Option Error),
    (m.Flush fd fi = .returns fi' res ∨ m.Close fd fi = .returns fi' res) →
      fi'.RawLeaves = fi.RawLeaves

/-! ## Sequences of calls -/

/-- One returning call on a file: a method of `File`, or a method of one of
its descriptors. -/
inductive FileOp (env : Env) (m : FdMethods) (self : FilePtr) : File → File → Prop where
  | callOpen (fi fi' : File) (flags : Flags) (res : Option fileDescriptor × Option Error) :
      File.Open env self fi flags = .returns fi' res → FileOp env m self fi fi'
  | callSize (fi fi' : File) (res : Int × Option Error) :
      File.Size env fi = .returns fi' res → FileOp env m self fi fi'
  | callGetNode (fi fi' : File) (res : Node × Option Error) :
      File.GetNode fi = .returns fi' res → FileOp env m self fi fi'
  | callFlush (fi fi' : File) (res : Option Error) :
      File.Flush env m self fi = .returns fi' res → FileOp env m self fi fi'
  | callSync (fi fi' : File) (res : Option Error) :
      File.Sync fi = .returns fi' res → FileOp env m self fi fi'
  | callType (fi fi' : File) (res : NodeType) :
      File.TypeOf fi = .returns fi' res → FileOp env m self fi fi'
  | fdFlush (fi fi' : File) (fd : fileDescriptor) (res : Option Error) :
      m.Flush fd fi = .returns fi' res → FileOp env m self fi fi'
  | fdClose (fi fi' : File) (fd : fileDescriptor) (res : Option Error) :
      m.Close fd fi = .returns fi' res → FileOp env m self fi fi'

/-- A file together with its live descriptors: those a successful `Open`
returned and that are not closed yet. -/
structure Sys where
  file : File
  live : List fileDescriptor

/-- The steps of the descriptor-lock protocol: an `Open` that returns a
descriptor, an `Open` that returns an error, a `Sync`, and the close of a live
descriptor (by the descriptor method `m.Close`). -/
inductive Step (env : Env) (m : FdMethods) (self : FilePtr) : Sys → Sys → Prop where
  | openOk (s : Sys) (flags : Flags) (fi' : File) (fd : fileDescriptor) :
      File.Open env self s.file flags = .returns fi' (some fd, none) →
      Step env m self s { file := fi', live := fd :: s.live }
  | openErr (s : Sys) (flags : Flags) (fi' : File) (err : Error) :
      File.Open env self s.file flags = .returns fi' (none, some err) →
      Step env m self s { file := fi', live := s.live }
  | sync (s : Sys) (fi' : File) (res : Option Error) :
      File.Sync s.file = .returns fi' res →
      Step env m self s { file := fi', live := s.live }
  | close (s : Sys) (before after : List fileDescriptor) (fd : fileDescriptor) (fi' : File)
      (res : Option Error) :
      s.live = before ++ fd :: after →
      m.Close fd s.file = .returns fi' res →
      Step env m self s { file := fi', live := before ++ after }

/-- The start of the protocol: the file as `NewFile` builds it, with no
descriptor. -/
def Sys.init (name : String) (node : Node) (parent : childCloser) (dserv : DAGService) : Sys :=
  { file := (NewFile name node parent dserv).1, live := [] }

/-- The states the protocol reaches from `init`. -/
def Sys.Reachable (env : Env) (m : FdMethods) (self : FilePtr) (init s : Sys) : Prop :=
  Relation.ReflTransGen (Step env m self) init s

/-- The link between the descriptor lock and the live descriptors: either all
live descriptors were opened without write and the lock counts them as its
readers, or the only live descriptor was opened with write and the lock is
locked for writing. -/
def Sys.LockInv (s : Sys) : Prop :=
  ((∀ fd ∈ s.live, fd.flags.Write = false) ∧
    s.file.desclock = { writer := false, readers := s.live.length }) ∨
  (∃ fd, s.live = [fd] ∧ fd.flags.Write = true ∧
    s.file.desclock = { writer := true, readers := 0 })

/-- The live descriptors that were opened with write. -/
def Sys.writers (s : Sys) : List fileDescriptor := s.live.filter (fun fd => fd.flags.Write)

/-- The live descriptors that were opened with read only. -/
def Sys.readers (s : Sys) : List fileDescriptor := s.live.filter (fun fd => !fd.flags.Write)

/-! ## Concrete inputs -/

/-- A toy metadata encoding for the examples: the first byte is the kind, the
remaining bytes are the declared length, most significant byte first. -/
def exampleKind : UInt8 → Option DataType
  | 0 => some .TRaw
  | 1 => some .TDirectory
  | 2 => some .TFile
  | 3 => some .TMetadata
  | 4 => some .TSymlink
  | 5 => some .THAMTShard
  | _ => none

/-- The number written by a byte string, most significant byte first. -/
def exampleLength (b : Bytes) : Nat := b.foldl (fun acc x => acc * 256 + x.toNat) 0

/-- The decoder of the toy encoding; error code 1 for malformed bytes. -/
def exampleDecode : Bytes → Except Nat Data
  | [] => .error 1
  | k :: rest =>
    match exampleKind k with
    | none => .error 1
    | some t => .ok { Typ := t, Filesize := exampleLength rest }

/-- Collaborators for the examples: the toy decoder, a factory that fails with
code 7 on nodes of an unknown implementation with tag 0 and succeeds on every
other node, and a commit that hands back the editor's node. -/
def exampleEnv : Env :=
  { FSNodeFromBytes := fun b =>
      match exampleDecode b with
      | .error code => .error code
      | .ok d => .ok { Typ := d.Typ }
    FromBytes := exampleDecode
    NewDagModifier := fun node dserv =>
      match node with
      | .other 0 _ => .error 7
      | _ => .ok { curNode := node, dagserv := dserv, RawLeaves := false, rest := 0 }
    commit := fun dmod => .ok dmod.curNode }

/-- The file `NewFile` builds around `node` in the examples. -/
def exampleFile (node : Node) : File := (NewFile "a" node { handle := 1 } { handle := 2 }).1

/-- The address of the file in the examples. -/
def examplePtr : FilePtr := { addr := 16 }

/-! ## Lemmas on the locks -/

theorem RWMutex.RLock_of_free (rw : RWMutex) (h : rw.writer = false) :
    rw.RLock = some { writer := false, readers := rw.readers + 1 } := by
  cases rw with
  | mk w r => simp only at h; subst h; rfl

theorem RWMutex.RLock_of_held (rw : RWMutex) (h : rw.writer = true) : rw.RLock = none := by
  simp [RWMutex.RLock, h]

theorem RWMutex.RUnlock_after_RLock (rw : RWMutex) (h : rw.writer = false) :
    RWMutex.RUnlock { writer := false, readers := rw.readers + 1 } = .ok rw := by
  cases rw with
  | mk w r => simp only at h; subst h; simp [RWMutex.RUnlock]

theorem RWMutex.Lock_eq_some (rw lk : RWMutex) (h : rw.Lock = some lk) :
    rw = RWMutex.zero ∧ lk = { writer := true, readers := 0 } := by
  cases rw with
  | mk w r =>
    simp only [RWMutex.Lock] at h
    split at h
    · rename_i hc
      obtain ⟨hw, hr⟩ := hc
      subst hw; subst hr
      exact ⟨rfl, (Option.some.inj h).symm⟩
    · cases h

/-! ## Lemmas on `Open` -/

theorem File.Open.body_of_free (env : Env) (self : FilePtr) (fi : File) (flags : Flags)
    (h : fi.nodelk.writer = false) :
    File.Open.body env self fi flags = .returns fi (File.Open.result env self fi flags) := by
  unfold File.Open.body File.Open.result
  rw [RWMutex.RLock_of_free _ h]
  simp only [RWMutex.RUnlock_after_RLock _ h]
  cases File.Open.typeSwitch env fi.node with
  | some err => rfl
  | none =>
    cases env.NewDagModifier fi.node fi.dserv with
    | error code => rfl
    | ok dmod => rfl

theorem File.Open.body_of_held (env : Env) (self : FilePtr) (fi : File) (flags : Flags)
    (h : fi.nodelk.writer = true) :
    File.Open.body env self fi flags = .blocks := by
  unfold File.Open.body
  rw [RWMutex.RLock_of_held _ h]

theorem File.Open.result_congr (env : Env) (self : FilePtr) (fi : File) (flags : Flags)
    (lk : RWMutex) :
    File.Open.result env self { fi with desclock := lk } flags =
      File.Open.result env self fi flags := rfl

/-- What `Open` does with write set. -/
theorem File.Open_of_write (env : Env) (self : FilePtr) (fi : File) (flags : Flags)
    (hW : flags.Write = true) :
    File.Open env self fi flags =
      if fi.desclock = RWMutex.zero ∧ fi.nodelk.writer = false then
        match File.Open.result env self fi flags with
        | (fd, some err) => .returns fi (fd, some err)
        | (fd, none) => .returns { fi with desclock := { writer := true, readers := 0 } } (fd, none)
      else .blocks := by
  unfold File.Open
  rw [if_pos hW]
  cases hL : fi.desclock.Lock with
  | none =>
    have : ¬ fi.desclock = RWMutex.zero := by
      intro h0
      rw [h0] at hL
      cases hL
    simp [this]
  | some lk =>
    obtain ⟨h0, hlk⟩ := RWMutex.Lock_eq_some _ _ hL
    subst hlk
    cases hN : fi.nodelk.writer with
    | true =>
      simp only [h0, true_and, Bool.true_eq_false, if_false]
      rw [File.Open.body_of_held env self { fi with desclock := { writer := true, readers := 0 } } flags hN]
      rfl
    | false =>
      simp only [h0, true_and, if_true]
      rw [File.Open.body_of_free env self { fi with desclock := { writer := true, readers := 0 } } flags hN, File.Open.result_congr]
      rcases h : File.Open.result env self fi flags with ⟨fd, _ | err⟩
      · rfl
      · simp only [File.Open.deferred, RWMutex.Unlock, if_true]
        cases fi
        simp only at h0
        subst h0
        rfl

/-- What `Open` does with read set and write not set. -/
theorem File.Open_of_read (env : Env) (self : FilePtr) (fi : File) (flags : Flags)
    (hW : flags.Write = false) (hR : flags.Read = true) :
    File.Open env self fi flags =
      if fi.desclock.writer = false ∧ fi.nodelk.writer = false then
        match File.Open.result env self fi flags with
        | (_, some _) => .runtimeError "sync: Unlock of unlocked RWMutex"
        | (fd, none) =>
          .returns { fi with desclock := { writer := false, readers := fi.desclock.readers + 1 } }
            (fd, none)
      else .blocks := by
  unfold File.Open
  rw [if_neg (by simp [hW]), if_pos hR]
  cases hD : fi.desclock.writer with
  | true =>
    rw [RWMutex.RLock_of_held _ hD]
    simp
  | false =>
    rw [RWMutex.RLock_of_free _ hD]
    cases hN : fi.nodelk.writer with
    | true =>
      simp only [true_and, Bool.true_eq_false, if_false]
      rw [File.Open.body_of_held env self { fi with desclock := { writer := false, readers := fi.desclock.readers + 1 } } flags hN]
      rfl
    | false =>
      simp only [true_and, if_true]
      rw [File.Open.body_of_free env self { fi with desclock := { writer := false, readers := fi.desclock.readers + 1 } } flags hN, File.Open.result_congr]
      rcases h : File.Open.result env self fi flags with ⟨fd, _ | err⟩
      · rfl
      · rfl

/-- What `Open` does with neither read nor write set. -/
theorem File.Open_of_neither (env : Env) (self : FilePtr) (fi : File) (flags : Flags)
    (hW : flags.Write = false) (hR : flags.Read = false) :
    File.Open env self fi flags = .returns fi (none, some InvalidFlags) := by
  unfold File.Open
  rw [if_neg (by simp [hW]), if_neg (by simp [hR])]
  rfl

/-! ## Lemmas on the errors `Open` builds -/

theorem File.Open.typeSwitch_ne_InvalidFlags (env : Env) (node : Node) (err : Error)
    (h : File.Open.typeSwitch env node = some err) : err ≠ InvalidFlags := by
  unfold File.Open.typeSwitch at h
  unfold InvalidFlags
  split at h
  · split at h
    · cases h; simp
    · split at h <;> first | (cases h; done) | (cases h; simp)
  · cases h
  · cases h

theorem File.Open.result_ne_InvalidFlags (env : Env) (self : FilePtr) (fi : File) (flags : Flags)
    (fd : Option fileDescriptor) (err : Error)
    (h : File.Open.result env self fi flags = (fd, some err)) : err ≠ InvalidFlags := by
  unfold File.Open.result at h
  split at h
  · rename_i e he
    cases h
    exact File.Open.typeSwitch_ne_InvalidFlags env _ _ he
  · split at h
    · cases h; simp [InvalidFlags]
    · cases h

/-! ## Properties of `Open` -/

/-- C3: with neither read nor write set, `Open` returns `InvalidFlags` and no
descriptor and leaves the whole state of the file as it was, whatever the
state of the locks and whatever the collaborators; with read or write set, no
error `Open` returns is `InvalidFlags`. -/
theorem Open_invalid_flags (env : Env) (self : FilePtr) (fi : File) (flags : Flags) :
    (flags.Read = false → flags.Write = false →
      File.Open env self fi flags = .returns fi (none, some InvalidFlags)) ∧
    (flags.Read = true ∨ flags.Write = true →
      ∀ (fi' : File) (res : Option fileDescriptor × Option Error),
        File.Open env self fi flags = .returns fi' res → res.2 ≠ some InvalidFlags) := by
  refine ⟨fun hR hW => File.Open_of_neither env self fi flags hW hR, ?_⟩
  intro hRW fi' res h
  cases hW : flags.Write with
  | true =>
    rw [File.Open_of_write env self fi flags hW] at h
    split at h
    · rcases hres : File.Open.result env self fi flags with ⟨fd, _ | err⟩
      · rw [hres] at h
        cases h
        simp
      · rw [hres] at h
        cases h
        intro hc
        exact File.Open.result_ne_InvalidFlags env self fi flags fd err hres (Option.some.inj hc)
    · cases h
  | false =>
    have hR : flags.Read = true := by
      rcases hRW with h1 | h1
      · exact h1
      · rw [hW] at h1; cases h1
    rw [File.Open_of_read env self fi flags hW hR] at h
    split at h
    · rcases hres : File.Open.result env self fi flags with ⟨fd, _ | err⟩
      · rw [hres] at h
        cases h
        simp
      · rw [hres] at h
        cases h
    · cases h

/-- C3, at a concrete input: a file whose descriptor lock is held exclusively,
opened with only sync set, and the same file opened with write set. -/
theorem Open_invalid_flags_witness :
    File.Open exampleEnv examplePtr
        { exampleFile (.other 1 0) with desclock := { writer := true, readers := 0 } }
        { Read := false, Write := false, Sync := true } =
      .returns { exampleFile (.other 1 0) with desclock := { writer := true, readers := 0 } }
        (none, some InvalidFlags) ∧
    ((none, some (Error.collaborator 7)) : Option fileDescriptor × Option Error).2 ≠
      some InvalidFlags :=
  ⟨(Open_invalid_flags exampleEnv examplePtr _ _).1 rfl rfl,
   (Open_invalid_flags exampleEnv examplePtr (exampleFile (.other 0 0))
      { Read := false, Write := true, Sync := false }).2 (Or.inr rfl) _ _ rfl⟩

/-- A result of `Open` without error holds the descriptor built around the
editor of the factory. -/
theorem File.Open.result_ok (env : Env) (self : FilePtr) (fi : File) (flags : Flags)
    (ofd : Option fileDescriptor) (h : File.Open.result env self fi flags = (ofd, none)) :
    ∃ (fd : fileDescriptor) (dmod : DagModifier),
      ofd = some fd ∧ fd.inode = self ∧ fd.flags = flags ∧
      env.NewDagModifier fi.node fi.dserv = .ok dmod ∧
      fd.mod = { dmod with RawLeaves := fi.RawLeaves } := by
  unfold File.Open.result at h
  cases hts : File.Open.typeSwitch env fi.node with
  | some err => simp [hts] at h
  | none =>
    cases hf : env.NewDagModifier fi.node fi.dserv with
    | error code => simp [hts, hf] at h
    | ok dmod =>
      simp only [hts, hf, Prod.mk.injEq, and_true] at h
      exact ⟨_, dmod, h.symm, rfl, rfl, rfl, rfl⟩

/-- The two ways `Open` returns without error: with write set, from a free
descriptor lock, which it leaves locked for writing; with read set and write
not set, from a descriptor lock without writer, to which it adds a reader. -/
theorem File.Open_returns_ok (env : Env) (self : FilePtr) (fi fi' : File) (flags : Flags)
    (ofd : Option fileDescriptor)
    (h : File.Open env self fi flags = .returns fi' (ofd, none)) :
    File.Open.result env self fi flags = (ofd, none) ∧ fi.nodelk.writer = false ∧
    ((flags.Write = true ∧ fi.desclock = RWMutex.zero ∧
        fi' = { fi with desclock := { writer := true, readers := 0 } }) ∨
     (flags.Write = false ∧ flags.Read = true ∧ fi.desclock.writer = false ∧
        fi' = { fi with
          desclock := { writer := false, readers := fi.desclock.readers + 1 } })) := by
  cases hW : flags.Write with
  | true =>
    rw [File.Open_of_write env self fi flags hW] at h
    split at h
    · rename_i hc
      rcases hres : File.Open.result env self fi flags with ⟨fd, _ | err⟩
      · rw [hres] at h
        simp only [Outcome.returns.injEq, Prod.mk.injEq, and_true] at h
        obtain ⟨hfi, hfd⟩ := h
        rw [hfd]
        exact ⟨rfl, hc.2, Or.inl ⟨rfl, hc.1, hfi.symm⟩⟩
      · rw [hres] at h
        cases h
    · cases h
  | false =>
    cases hR : flags.Read with
    | false =>
      rw [File.Open_of_neither env self fi flags hW hR] at h
      cases h
    | true =>
      rw [File.Open_of_read env self fi flags hW hR] at h
      split at h
      · rename_i hc
        rcases hres : File.Open.result env self fi flags with ⟨fd, _ | err⟩
        · rw [hres] at h
          simp only [Outcome.returns.injEq, Prod.mk.injEq, and_true] at h
          obtain ⟨hfi, hfd⟩ := h
          rw [hfd]
          exact ⟨rfl, hc.2, Or.inr ⟨rfl, rfl, hc.1, hfi.symm⟩⟩
        · rw [hres] at h
          cases h
      · cases h

/-- What the other lemmas need of a successful `Open`: the descriptor's flags
and `RawLeaves`, and the descriptor lock before and after. -/
theorem File.Open_ok_facts (env : Env) (self : FilePtr) (fi fi' : File) (flags : Flags)
    (fd : fileDescriptor)
    (h : File.Open env self fi flags = .returns fi' (some fd, none)) :
    fd.flags = flags ∧ fd.mod.RawLeaves = fi.RawLeaves ∧
    (flags.Write = true →
      fi.desclock = RWMutex.zero ∧ fi'.desclock = { writer := true, readers := 0 }) ∧
    (flags.Write = false →
      fi.desclock.writer = false ∧
      fi'.desclock = { writer := false, readers := fi.desclock.readers + 1 }) := by
  obtain ⟨hres, _, hcase⟩ := File.Open_returns_ok env self fi fi' flags (some fd) h
  obtain ⟨fd', dmod, hfd', _, hflags, _, hmod⟩ :=
    File.Open.result_ok env self fi flags (some fd) hres
  cases hfd'
  refine ⟨hflags, by rw [hmod], ?_, ?_⟩
  · intro hW
    rcases hcase with ⟨_, h0, hfi⟩ | ⟨hW', _⟩
    · exact ⟨h0, by rw [hfi]⟩
    · rw [hW] at hW'
      cases hW'
  · intro hW
    rcases hcase with ⟨hW', _⟩ | ⟨_, _, h0, hfi⟩
    · rw [hW] at hW'
      cases hW'
    · exact ⟨h0, by rw [hfi]⟩

/-- C4: when `Open` returns without error, it returns a descriptor; with write set the
descriptor lock is then locked for writing with no reader; with read set and
write not set it has one more reader than before and no writer; the node lock
is in the state it was in before the call and is not locked for writing; the node
and every other field of the file are unchanged; the descriptor points to this
file, carries the flags of the call and wraps the editor the factory built
from the file's node and store, with `RawLeaves` set from the file. -/
theorem Open_success (env : Env) (self : FilePtr) (fi fi' : File) (flags : Flags)
    (ofd : Option fileDescriptor)
    (h : File.Open env self fi flags = .returns fi' (ofd, none)) :
    (flags.Write = true → fi'.desclock = { writer := true, readers := 0 }) ∧
    (flags.Read = true → flags.Write = false →
      fi'.desclock = { writer := false, readers := fi.desclock.readers + 1 }) ∧
    fi'.nodelk = fi.nodelk ∧ fi'.nodelk.writer = false ∧
    fi'.node = fi.node ∧
    fi'.parent = fi.parent ∧ fi'.name = fi.name ∧ fi'.dserv = fi.dserv ∧
    fi'.RawLeaves = fi.RawLeaves ∧
    ∃ (fd : fileDescriptor) (dmod : DagModifier),
      ofd = some fd ∧ fd.inode = self ∧ fd.flags = flags ∧
      env.NewDagModifier fi.node fi.dserv = .ok dmod ∧
      fd.mod = { dmod with RawLeaves := fi.RawLeaves } := by
  obtain ⟨hres, hN, hcase⟩ := File.Open_returns_ok env self fi fi' flags ofd h
  have hdesc := File.Open.result_ok env self fi flags ofd hres
  rcases hcase with ⟨hW, _, hfi⟩ | ⟨hW, _, _, hfi⟩
  · subst hfi
    refine ⟨fun _ => rfl, fun _ hc => ?_, rfl, hN, rfl, rfl, rfl, rfl, rfl, hdesc⟩
    rw [hW] at hc
    cases hc
  · subst hfi
    refine ⟨fun hc => ?_, fun _ _ => rfl, rfl, hN, rfl, rfl, rfl, rfl, rfl, hdesc⟩
    rw [hW] at hc
    cases hc

/-- C4, at a concrete input: a file over a structured node of kind file, read
by one descriptor already, opened with read set. -/
theorem Open_success_witness :
    File.Open exampleEnv examplePtr
        { exampleFile (.ProtoNode { Data := [2, 3, 232], cidVersion := 1 }) with
          desclock := { writer := false, readers := 1 } }
        { Read := true, Write := false, Sync := false } =
      .returns
        { exampleFile (.ProtoNode { Data := [2, 3, 232], cidVersion := 1 }) with
          desclock := { writer := false, readers := 2 } }
        (some
          { inode := examplePtr
            flags := { Read := true, Write := false, Sync := false }
            mod :=
              { curNode := .ProtoNode { Data := [2, 3, 232], cidVersion := 1 }
                dagserv := { handle := 2 }, RawLeaves := true, rest := 0 } }, none) ∧
    ({ exampleFile (.ProtoNode { Data := [2, 3, 232], cidVersion := 1 }) with
          desclock := { writer := false, readers := 2 } } : File).desclock =
      { writer := false, readers := 1 + 1 } :=
  ⟨rfl, (Open_success exampleEnv examplePtr
      { exampleFile (.ProtoNode { Data := [2, 3, 232], cidVersion := 1 }) with
        desclock := { writer := false, readers := 1 } } _
      { Read := true, Write := false, Sync := false } _ rfl).2.1 rfl rfl⟩

/-! ## `Size` -/

theorem File.Size_of_free (env : Env) (fi : File) (h : fi.nodelk.writer = false) :
    File.Size env fi = .returns fi (File.Size.typeSwitch env fi.node) := by
  unfold File.Size
  rw [RWMutex.RLock_of_free _ h]
  simp only [RWMutex.RUnlock_after_RLock _ h]

theorem File.Size_of_held (env : Env) (fi : File) (h : fi.nodelk.writer = true) :
    File.Size env fi = .blocks := by
  unfold File.Size
  rw [RWMutex.RLock_of_held _ h]

theorem int64_of_lt (x : Nat) (h : x < 2 ^ 64) :
    int64 x = if x < 2 ^ 63 then (x : Int) else (x : Int) - 2 ^ 64 := by
  unfold int64
  rw [Nat.mod_eq_of_lt h]

/-- C5 (as amended): for a structured node whose metadata decodes with
declared length `L < 2 ^ 64`, `Size` returns, with no error and with the file
unchanged, `L` itself when `L < 2 ^ 63` and `L - 2 ^ 64` otherwise. -/
theorem Size_declared_length (env : Env) (fi : File) (nd : ProtoNode) (d : Data)
    (hlk : fi.nodelk.writer = false) (hn : fi.node = .ProtoNode nd)
    (hd : env.FromBytes nd.Data = .ok d) (hL : d.Filesize < 2 ^ 64) :
    File.Size env fi =
      .returns fi
        (if d.Filesize < 2 ^ 63 then (d.Filesize : Int) else (d.Filesize : Int) - 2 ^ 64, none) := by
  rw [File.Size_of_free env fi hlk, hn]
  simp only [File.Size.typeSwitch, hd, Data.GetFilesize, Nat.mod_eq_of_lt hL, int64_of_lt _ hL]

/-- C5 (as amended), at the spec's example: declared length 1000 gives 1000. -/
theorem Size_declared_length_witness :
    File.Size exampleEnv (exampleFile (.ProtoNode { Data := [2, 3, 232], cidVersion := 0 })) =
      .returns (exampleFile (.ProtoNode { Data := [2, 3, 232], cidVersion := 0 }))
        (if (1000 : Nat) < 2 ^ 63 then ((1000 : Nat) : Int) else ((1000 : Nat) : Int) - 2 ^ 64,
          none) :=
  Size_declared_length exampleEnv
    (exampleFile (.ProtoNode { Data := [2, 3, 232], cidVersion := 0 }))
    { Data := [2, 3, 232], cidVersion := 0 } { Typ := .TFile, Filesize := 1000 }
    rfl rfl rfl (by decide)

/-- C5 as stated fails: a structured node whose metadata declares the length
`2 ^ 63`, a value of the unsigned 64-bit field, has `Size` return
`- 2 ^ 63`, not `2 ^ 63`. -/
theorem Size_declared_length_counterexample :
    exampleEnv.FromBytes [2, 128, 0, 0, 0, 0, 0, 0, 0] =
      .ok { Typ := .TFile, Filesize := 9223372036854775808 } ∧
    (9223372036854775808 : Nat) < 2 ^ 64 ∧
    File.Size exampleEnv
        (exampleFile (.ProtoNode { Data := [2, 128, 0, 0, 0, 0, 0, 0, 0], cidVersion := 0 })) =
      .returns
        (exampleFile (.ProtoNode { Data := [2, 128, 0, 0, 0, 0, 0, 0, 0], cidVersion := 0 }))
        (-9223372036854775808, none) ∧
    File.Size exampleEnv
        (exampleFile (.ProtoNode { Data := [2, 128, 0, 0, 0, 0, 0, 0, 0], cidVersion := 0 })) ≠
      .returns
        (exampleFile (.ProtoNode { Data := [2, 128, 0, 0, 0, 0, 0, 0, 0], cidVersion := 0 }))
        (9223372036854775808, none) := by
  refine ⟨rfl, by decide, rfl, ?_⟩
  decide

/-- C6: on a file whose node lock is not locked for writing, `Size` returns
the length of the bytes of a raw node with no error, `0` with
`UnrecognizedNodeType` for a node that is neither structured nor raw, and `0`
with the decoder's error for a structured node whose metadata fails to
decode; whenever `Size` returns, the whole state of the file (node, both
locks) is as before the call. -/
theorem Size_other_shapes (env : Env) (fi : File) (hlk : fi.nodelk.writer = false) :
    (∀ nd : RawNode, fi.node = .RawNode nd →
      File.Size env fi = .returns fi ((nd.RawData.length : Int), none)) ∧
    (∀ tag v : Nat, fi.node = .other tag v →
      File.Size env fi = .returns fi (0, some UnrecognizedNodeType)) ∧
    (∀ (nd : ProtoNode) (code : Nat), fi.node = .ProtoNode nd →
      env.FromBytes nd.Data = .error code →
      File.Size env fi = .returns fi (0, some (.collaborator code))) ∧
    (∀ (fi' : File) (res : Int × Option Error), File.Size env fi = .returns fi' res → fi' = fi) := by
  rw [File.Size_of_free env fi hlk]
  refine ⟨?_, ?_, ?_, ?_⟩
  · intro nd hn
    rw [hn]
    rfl
  · intro tag v hn
    rw [hn]
    rfl
  · intro nd code hn hd
    rw [hn]
    simp only [File.Size.typeSwitch, hd]
  · intro fi' res h
    cases h
    rfl

/-- C6, at the spec's example: a raw node of 42 bytes gives 42. -/
theorem Size_other_shapes_witness :
    File.Size exampleEnv
        (exampleFile (.RawNode { RawData := List.replicate 42 0, cidVersion := 1 })) =
      .returns (exampleFile (.RawNode { RawData := List.replicate 42 0, cidVersion := 1 }))
        (42, none) :=
  (Size_other_shapes exampleEnv
    (exampleFile (.RawNode { RawData := List.replicate 42 0, cidVersion := 1 })) rfl).1
    { RawData := List.replicate 42 0, cidVersion := 1 } rfl

/-! ## `Sync`, `GetNode`, `Flush` -/

theorem File.Sync_returns (fi fi' : File) (res : Option Error)
    (h : File.Sync fi = .returns fi' res) : fi' = fi ∧ res = none ∧ fi.desclock = RWMutex.zero := by
  unfold File.Sync at h
  cases hL : fi.desclock.Lock with
  | none => rw [hL] at h; cases h
  | some lk =>
    obtain ⟨h0, hlk⟩ := RWMutex.Lock_eq_some _ _ hL
    subst hlk
    rw [hL] at h
    simp only [RWMutex.Unlock, if_true] at h
    cases h
    refine ⟨?_, rfl, h0⟩
    cases fi
    simp only at h0
    subst h0
    rfl

theorem File.GetNode_returns (fi fi' : File) (res : Node × Option Error)
    (h : File.GetNode fi = .returns fi' res) : fi' = fi ∧ res = (fi.node, none) := by
  unfold File.GetNode at h
  cases hN : fi.nodelk.writer with
  | true => rw [RWMutex.RLock_of_held _ hN] at h; cases h
  | false =>
    rw [RWMutex.RLock_of_free _ hN] at h
    simp only [RWMutex.RUnlock_after_RLock _ hN] at h
    cases h
    exact ⟨rfl, rfl⟩

/-- Whenever `Open` returns, the file differs from before in its descriptor
lock at most. -/
theorem File.Open_returns_frame (env : Env) (self : FilePtr) (fi fi' : File) (flags : Flags)
    (res : Option fileDescriptor × Option Error)
    (h : File.Open env self fi flags = .returns fi' res) :
    fi' = { fi with desclock := fi'.desclock } := by
  cases hW : flags.Write with
  | true =>
    rw [File.Open_of_write env self fi flags hW] at h
    split at h
    · rcases hres : File.Open.result env self fi flags with ⟨fd, _ | err⟩
      · rw [hres] at h; cases h; rfl
      · rw [hres] at h; cases h; rfl
    · cases h
  | false =>
    cases hR : flags.Read with
    | false =>
      rw [File.Open_of_neither env self fi flags hW hR] at h
      cases h; rfl
    | true =>
      rw [File.Open_of_read env self fi flags hW hR] at h
      split at h
      · rcases hres : File.Open.result env self fi flags with ⟨fd, _ | err⟩
        · rw [hres] at h; cases h; rfl
        · rw [hres] at h; cases h
      · cases h

/-- Whenever `Open` returns an error, the descriptor lock is as before. -/
theorem File.Open_error_lock (env : Env) (self : FilePtr) (fi fi' : File) (flags : Flags)
    (ofd : Option fileDescriptor) (err : Error)
    (h : File.Open env self fi flags = .returns fi' (ofd, some err)) : fi' = fi := by
  cases hW : flags.Write with
  | true =>
    rw [File.Open_of_write env self fi flags hW] at h
    split at h
    · rcases hres : File.Open.result env self fi flags with ⟨fd, _ | err⟩
      · rw [hres] at h; cases h
      · rw [hres] at h; cases h; rfl
    · cases h
  | false =>
    cases hR : flags.Read with
    | false =>
      rw [File.Open_of_neither env self fi flags hW hR] at h
      cases h; rfl
    | true =>
      rw [File.Open_of_read env self fi flags hW hR] at h
      split at h
      · rcases hres : File.Open.result env self fi flags with ⟨fd, _ | err⟩
        · rw [hres] at h; cases h
        · rw [hres] at h; cases h
      · cases h

/-- The ways `File.Flush` returns: `Open` returned an error, or `Open`
returned a descriptor and both of its methods returned. -/
theorem File.Flush_returns (env : Env) (m : FdMethods) (self : FilePtr) (fi fi' : File)
    (res : Option Error) (h : File.Flush env m self fi = .returns fi' res) :
    (∃ ofd err, File.Open env self fi flushFlags = .returns fi' (ofd, some err) ∧
      res = some err) ∨
    (∃ fd fi1 fi2 c, File.Open env self fi flushFlags = .returns fi1 (some fd, none) ∧
      m.Flush fd fi1 = .returns fi2 res ∧ m.Close fd fi2 = .returns fi' c) := by
  unfold File.Flush at h
  unfold flushFlags
  split at h
  · cases h
  · cases h
  · rename_i fi1 ofd err hO
    cases h
    exact Or.inl ⟨ofd, err, hO, rfl⟩
  · cases h
  · rename_i fi1 fd hO
    split at h
    · cases h
    · cases h
    · rename_i fi2 r hF
      split at h
      · cases h
      · cases h
      · rename_i fi3 c hC
        cases h
        exact Or.inr ⟨fd, fi1, fi2, c, hO, hF, hC⟩

/-! ## The descriptor of the spec -/

theorem fileDescriptor.commit_returns (env : Env) (fd : fileDescriptor) (fi fi' : File)
    (res : Option Error) (h : fileDescriptor.commit env fd fi = .returns fi' res) :
    fi' = { fi with node := fi'.node } := by
  unfold fileDescriptor.commit at h
  split at h
  · cases h; rfl
  · cases hL : fi.nodelk.Lock with
    | none => rw [hL] at h; cases h
    | some lk =>
      obtain ⟨h0, hlk⟩ := RWMutex.Lock_eq_some _ _ hL
      subst hlk
      rw [hL] at h
      simp only [RWMutex.Unlock, if_true] at h
      cases h
      cases fi
      simp only at h0
      subst h0
      rfl

theorem fileDescriptor.Close_returns (env : Env) (fd : fileDescriptor) (fi fi' : File)
    (res : Option Error) (h : fileDescriptor.Close env fd fi = .returns fi' res) :
    fileDescriptor.release fd fi.desclock = .ok fi'.desclock ∧
      fi' = { fi with node := fi'.node, desclock := fi'.desclock } := by
  unfold fileDescriptor.Close at h
  split at h
  · cases h
  · cases h
  · rename_i fi1 r hc
    have hfi1 : fi1 = { fi with node := fi1.node } := by
      split at hc
      · exact fileDescriptor.commit_returns env fd fi fi1 r hc
      · cases hc; rfl
    cases hrel : fileDescriptor.release fd fi1.desclock with
    | error msg => rw [hrel] at h; cases h
    | ok lk =>
      rw [hrel] at h
      cases h
      rw [hfi1] at hrel
      refine ⟨hrel, ?_⟩
      rw [hfi1]

theorem specDescriptor_closesOnce (env : Env) : (specDescriptor env).ClosesOnce := by
  intro fd fi fi' res h
  exact (fileDescriptor.Close_returns env fd fi fi' res h).1

theorem specDescriptor_flushKeepsLock (env : Env) : (specDescriptor env).FlushKeepsLock := by
  intro fd fi fi' res h
  have := fileDescriptor.commit_returns env fd fi fi' res h
  rw [this]

theorem specDescriptor_keepsRawLeaves (env : Env) : (specDescriptor env).KeepsRawLeaves := by
  intro fd fi fi' res h
  rcases h with h | h
  · have := fileDescriptor.commit_returns env fd fi fi' res h
    rw [this]
  · have := (fileDescriptor.Close_returns env fd fi fi' res h).2
    rw [this]

/-! ## Properties of `Flush` and of `RawLeaves` -/

/-- C9: `File.Flush` opens with the flags write and sync set and read not set.
When that `Open` returns an error, `Flush` returns that error in the state
`Open` left, whatever the methods of descriptors are (none is called). When it
returns a descriptor, `Flush` runs the descriptor's `Flush`, then its `Close`
on the state `Flush` left, and returns the result of the descriptor's `Flush`,
be it an error or not, dropping the result of `Close`. `File.Flush` returns in
no other way. With a `Close` that releases the descriptor lock once and a
descriptor `Flush` that leaves it alone, the descriptor lock is, whenever
`File.Flush` returns, in the state it was in before the call. -/
theorem Flush_composition (env : Env) (m : FdMethods) (self : FilePtr) (fi : File) :
    (∀ (fi1 : File) (ofd : Option fileDescriptor) (err : Error),
      File.Open env self fi { Read := false, Write := true, Sync := true } =
        .returns fi1 (ofd, some err) →
      ∀ m' : FdMethods, File.Flush env m' self fi = .returns fi1 (some err)) ∧
    (∀ (fi1 fi2 fi3 : File) (fd : fileDescriptor) (res c : Option Error),
      File.Open env self fi { Read := false, Write := true, Sync := true } =
        .returns fi1 (some fd, none) →
      m.Flush fd fi1 = .returns fi2 res → m.Close fd fi2 = .returns fi3 c →
      File.Flush env m self fi = .returns fi3 res) ∧
    (∀ (fi' : File) (res : Option Error), File.Flush env m self fi = .returns fi' res →
      (∃ ofd err, File.Open env self fi { Read := false, Write := true, Sync := true } =
          .returns fi' (ofd, some err) ∧ res = some err) ∨
      (∃ fd fi1 fi2 c, File.Open env self fi { Read := false, Write := true, Sync := true } =
          .returns fi1 (some fd, none) ∧
        m.Flush fd fi1 = .returns fi2 res ∧ m.Close fd fi2 = .returns fi' c)) ∧
    (m.ClosesOnce → m.FlushKeepsLock →
      ∀ (fi' : File) (res : Option Error), File.Flush env m self fi = .returns fi' res →
        fi'.desclock = fi.desclock) := by
  refine ⟨?_, ?_, ?_, ?_⟩
  · intro fi1 ofd err hO m'
    unfold File.Flush
    rw [hO]
    cases ofd <;> rfl
  · intro fi1 fi2 fi3 fd res c hO hF hC
    unfold File.Flush
    rw [hO]
    simp only [hF, hC]
  · intro fi' res h
    exact File.Flush_returns env m self fi fi' res h
  · intro hClose hFlush fi' res h
    rcases File.Flush_returns env m self fi fi' res h with
      ⟨ofd, err, hO, _⟩ | ⟨fd, fi1, fi2, c, hO, hF, hC⟩
    · rw [File.Open_error_lock env self fi fi' flushFlags ofd err hO]
    · obtain ⟨hflags, _, hw, _⟩ := File.Open_ok_facts env self fi fi1 flushFlags fd hO
      obtain ⟨h0, h1⟩ := hw rfl
      have h2 := hFlush fd fi1 fi2 res hF
      have h3 := hClose fd fi2 fi' c hC
      rw [h2, h1] at h3
      simp only [fileDescriptor.release, hflags, flushFlags, RWMutex.Unlock, if_true] at h3
      injection h3 with h3
      rw [← h3, h0]
      rfl

/-- C9, at a concrete input: a file over a structured node of kind file, with
the descriptor of the spec; and a file over a symlink node, whose `Open`
fails. -/
theorem Flush_composition_witness :
    File.Flush exampleEnv (specDescriptor exampleEnv) examplePtr
        (exampleFile (.ProtoNode { Data := [4], cidVersion := 0 })) =
      .returns (exampleFile (.ProtoNode { Data := [4], cidVersion := 0 }))
        (some UnsupportedFeature) ∧
    ∀ (fi' : File) (res : Option Error),
      File.Flush exampleEnv (specDescriptor exampleEnv) examplePtr
          (exampleFile (.ProtoNode { Data := [2, 3, 232], cidVersion := 0 })) =
        .returns fi' res →
      fi'.desclock =
        (exampleFile (.ProtoNode { Data := [2, 3, 232], cidVersion := 0 })).desclock :=
  ⟨(Flush_composition exampleEnv (specDescriptor exampleEnv) examplePtr
      (exampleFile (.ProtoNode { Data := [4], cidVersion := 0 }))).1 _ none _ rfl _,
   (Flush_composition exampleEnv (specDescriptor exampleEnv) examplePtr
      (exampleFile (.ProtoNode { Data := [2, 3, 232], cidVersion := 0 }))).2.2.2
      (specDescriptor_closesOnce exampleEnv) (specDescriptor_flushKeepsLock exampleEnv)⟩

theorem FileOp_RawLeaves (env : Env) (m : FdMethods) (self : FilePtr) (hm : m.KeepsRawLeaves)
    (fi fi' : File) (h : FileOp env m self fi fi') : fi'.RawLeaves = fi.RawLeaves := by
  cases h with
  | callOpen flags res h => rw [File.Open_returns_frame env self fi fi' flags res h]
  | callSize res h =>
    cases hN : fi.nodelk.writer with
    | true => rw [File.Size_of_held env fi hN] at h; cases h
    | false => rw [File.Size_of_free env fi hN] at h; cases h; rfl
  | callGetNode res h => rw [(File.GetNode_returns fi fi' res h).1]
  | callFlush res h =>
    rcases File.Flush_returns env m self fi fi' res h with
      ⟨ofd, err, hO, _⟩ | ⟨fd, fi1, fi2, c, hO, hF, hC⟩
    · rw [File.Open_returns_frame env self fi fi' _ _ hO]
    · rw [hm fd fi2 fi' c (Or.inr hC), hm fd fi1 fi2 res (Or.inl hF),
        File.Open_returns_frame env self fi fi1 _ _ hO]
  | callSync res h => rw [(File.Sync_returns fi fi' res h).1]
  | callType res h => cases h; rfl
  | fdFlush fd res h => exact hm fd fi fi' res (Or.inl h)
  | fdClose fd res h => exact hm fd fi fi' res (Or.inr h)

/-- C7: `NewFile` returns no error and a file holding the name, node, parent
and store it was given, with `RawLeaves` true exactly when the version of the
node's content identifier is above 0. No returning call of `Open`, `Size`,
`GetNode`, `Flush`, `Sync` or `Type` changes `RawLeaves`, given descriptor
methods that do not write it. After any sequence of such calls and of
descriptor calls, the editor inside the descriptor a successful `Open`
returns has `RawLeaves` equal to the file's, which is the value `NewFile`
set. -/
theorem NewFile_RawLeaves (env : Env) (m : FdMethods) (self : FilePtr) (hm : m.KeepsRawLeaves)
    (name : String) (node : Node) (parent : childCloser) (dserv : DAGService) :
    (NewFile name node parent dserv).2 = none ∧
    (NewFile name node parent dserv).1.name = name ∧
    (NewFile name node parent dserv).1.node = node ∧
    (NewFile name node parent dserv).1.parent = parent ∧
    (NewFile name node parent dserv).1.dserv = dserv ∧
    ((NewFile name node parent dserv).1.RawLeaves = true ↔ node.cidVersion > 0) ∧
    (∀ fi fi' : File, FileOp env m self fi fi' → fi'.RawLeaves = fi.RawLeaves) ∧
    (∀ fi : File, Relation.ReflTransGen (FileOp env m self) (NewFile name node parent dserv).1 fi →
      ∀ (flags : Flags) (fi' : File) (fd : fileDescriptor),
        File.Open env self fi flags = .returns fi' (some fd, none) →
        fd.mod.RawLeaves = fi.RawLeaves ∧
        fd.mod.RawLeaves = (NewFile name node parent dserv).1.RawLeaves) := by
  have hnew : ∀ f : File, f = (NewFile name node parent dserv).1 →
      f.name = name ∧ f.node = node ∧ f.parent = parent ∧ f.dserv = dserv ∧
      (f.RawLeaves = true ↔ node.cidVersion > 0) := by
    intro f hf
    subst hf
    unfold NewFile
    by_cases hv : node.cidVersion > 0
    · simp [hv]
    · simp [hv]
  obtain ⟨h1, h2, h3, h4, h5⟩ := hnew _ rfl
  refine ⟨rfl, h1, h2, h3, h4, h5, FileOp_RawLeaves env m self hm, ?_⟩
  intro fi hreach flags fi' fd hO
  have hkeep : fi.RawLeaves = (NewFile name node parent dserv).1.RawLeaves := by
    clear hO
    induction hreach with
    | refl => rfl
    | tail _ hstep ih => rw [FileOp_RawLeaves env m self hm _ _ hstep, ih]
  have hmod := (File.Open_ok_facts env self fi fi' flags fd hO).2.1
  exact ⟨hmod, hmod.trans hkeep⟩

/-- C7, at a concrete input: a structured node with a version 1 identifier,
the descriptor of the spec, and an `Open` after a `Sync`. -/
theorem NewFile_RawLeaves_witness :
    (specDescriptor exampleEnv).KeepsRawLeaves ∧
    ((NewFile "a" (.ProtoNode { Data := [2], cidVersion := 1 }) { handle := 1 }
        { handle := 2 }).1.RawLeaves = true ↔
      (Node.ProtoNode { Data := [2], cidVersion := 1 }).cidVersion > 0) ∧
    (DagModifier.mk (.ProtoNode { Data := [2], cidVersion := 1 }) { handle := 2 } true 0).RawLeaves =
      (NewFile "a" (.ProtoNode { Data := [2], cidVersion := 1 }) { handle := 1 }
        { handle := 2 }).1.RawLeaves :=
  ⟨specDescriptor_keepsRawLeaves exampleEnv,
   (NewFile_RawLeaves exampleEnv (specDescriptor exampleEnv) examplePtr
      (specDescriptor_keepsRawLeaves exampleEnv) "a"
      (.ProtoNode { Data := [2], cidVersion := 1 }) { handle := 1 } { handle := 2 }).2.2.2.2.2.1,
   ((NewFile_RawLeaves exampleEnv (specDescriptor exampleEnv) examplePtr
      (specDescriptor_keepsRawLeaves exampleEnv) "a"
      (.ProtoNode { Data := [2], cidVersion := 1 }) { handle := 1 } { handle := 2 }).2.2.2.2.2.2.2
      _ (Relation.ReflTransGen.single (FileOp.callSync _ _ none rfl))
      { Read := true, Write := false, Sync := false } _
      { inode := examplePtr, flags := { Read := true, Write := false, Sync := false },
        mod := DagModifier.mk (.ProtoNode { Data := [2], cidVersion := 1 }) { handle := 2 } true 0 }
      rfl).2⟩

/-! ## The descriptor-lock protocol -/

theorem Sys.LockInv_init (name : String) (node : Node) (parent : childCloser)
    (dserv : DAGService) : (Sys.init name node parent dserv).LockInv := by
  left
  refine ⟨fun fd h => (by cases h), ?_⟩
  unfold Sys.init NewFile
  by_cases hv : node.cidVersion > 0 <;> simp [hv, RWMutex.zero]

theorem Sys.LockInv_step (env : Env) (m : FdMethods) (self : FilePtr) (hm : m.ClosesOnce)
    (s s' : Sys) (hinv : s.LockInv) (hstep : Step env m self s s') : s'.LockInv := by
  cases hstep with
  | openOk flags fi' fd hO =>
    obtain ⟨hflags, _, hw, hr⟩ := File.Open_ok_facts env self s.file fi' flags fd hO
    cases hW : flags.Write with
    | true =>
      right
      obtain ⟨h0, hlk'⟩ := hw hW
      rcases hinv with ⟨_, hlk⟩ | ⟨fd0, _, _, hlk⟩
      · rw [h0] at hlk
        have hlen : s.live.length = 0 := (congrArg RWMutex.readers hlk).symm
        have hnil : s.live = [] := List.length_eq_zero.mp hlen
        exact ⟨fd, by simp [hnil], by rw [hflags, hW], hlk'⟩
      · rw [h0] at hlk
        cases hlk
    | false =>
      left
      obtain ⟨h0, hlk'⟩ := hr hW
      rcases hinv with ⟨hall, hlk⟩ | ⟨fd0, _, _, hlk⟩
      · refine ⟨?_, ?_⟩
        · intro x hx
          rcases List.mem_cons.mp hx with hx | hx
          · rw [hx, hflags, hW]
          · exact hall x hx
        · simp only [List.length_cons]
          rw [hlk', hlk]
      · rw [hlk] at h0
        cases h0
  | openErr flags fi' err hO =>
    have := File.Open_error_lock env self s.file fi' flags none err hO
    subst this
    exact hinv
  | sync fi' res hS =>
    have := (File.Sync_returns s.file fi' res hS).1
    subst this
    exact hinv
  | close before after fd fi' res hlive hC =>
    have hrel := hm fd s.file fi' res hC
    left
    rcases hinv with ⟨hall, hlk⟩ | ⟨fd0, hl0, hw0, hlk⟩
    · have hfd : fd.flags.Write = false := hall fd (by rw [hlive]; simp)
      refine ⟨?_, ?_⟩
      · intro x hx
        apply hall x
        rw [hlive]
        rcases List.mem_append.mp hx with hx | hx
        · exact List.mem_append.mpr (Or.inl hx)
        · exact List.mem_append.mpr (Or.inr (List.mem_cons_of_mem _ hx))
      · rw [hlk, hlive] at hrel
        simp only [fileDescriptor.release, hfd, Bool.false_eq_true, if_false, RWMutex.RUnlock,
          List.length_append, List.length_cons] at hrel
        rw [if_pos (by simp)] at hrel
        injection hrel with hrel
        rw [← hrel]
        simp only [List.length_append]
        congr 1
    · rw [hl0] at hlive
      have hb : before = [] := by
        cases before with
        | nil => rfl
        | cons b bs =>
          have := congrArg List.length hlive
          simp at this
      subst hb
      simp only [List.nil_append, List.cons.injEq] at hlive
      obtain ⟨hfd, hafter⟩ := hlive
      subst hfd
      subst hafter
      refine ⟨fun x hx => (by cases hx), ?_⟩
      rw [hlk] at hrel
      simp only [fileDescriptor.release, hw0, if_true, RWMutex.Unlock] at hrel
      injection hrel with hrel
      rw [← hrel]
      rfl

theorem Sys.LockInv_reachable (env : Env) (m : FdMethods) (self : FilePtr) (hm : m.ClosesOnce)
    (init s : Sys) (h0 : init.LockInv) (h : Sys.Reachable env m self init s) : s.LockInv := by
  induction h with
  | refl => exact h0
  | tail _ hstep ih => exact Sys.LockInv_step env m self hm _ _ ih hstep

/-- C8: in every state reached from a freshly constructed file by `Open`
calls (returning a descriptor or an error), `Sync` calls and closes of live
descriptors, each close releasing once the lock its `Open` acquired: at most one live descriptor was opened with write, and the
descriptor lock is locked for writing exactly when there is one; the lock's
reader count is the number of live descriptors opened without write; the lock
is never locked for writing while it has a reader; an `Open` with write set
returns only when no descriptor is live; and when a descriptor opened with
write is live, no descriptor opened without write is. -/
theorem desclock_invariant (env : Env) (m : FdMethods) (self : FilePtr) (hm : m.ClosesOnce)
    (name : String) (node : Node) (parent : childCloser) (dserv : DAGService) (s : Sys)
    (h : Sys.Reachable env m self (Sys.init name node parent dserv) s) :
    s.writers.length ≤ 1 ∧
    (s.file.desclock.writer = true ↔ s.writers.length = 1) ∧
    s.file.desclock.readers = s.readers.length ∧
    ¬ (s.file.desclock.writer = true ∧ 0 < s.file.desclock.readers) ∧
    (∀ (flags : Flags) (fi' : File) (res : Option fileDescriptor × Option Error),
      flags.Write = true → File.Open env self s.file flags = .returns fi' res → s.live = []) ∧
    (s.writers ≠ [] → s.readers = []) := by
  have hinv := Sys.LockInv_reachable env m self hm _ s (Sys.LockInv_init name node parent dserv) h
  rcases hinv with ⟨hall, hlk⟩ | ⟨fd0, hl0, hw0, hlk⟩
  · have hwr : s.writers = [] := by
      unfold Sys.writers
      rw [List.filter_eq_nil_iff]
      intro x hx
      rw [hall x hx]
      simp
    have hrd : s.readers = s.live := by
      unfold Sys.readers
      rw [List.filter_eq_self]
      intro x hx
      rw [hall x hx]
      rfl
    refine ⟨by rw [hwr]; simp, ?_, by rw [hlk, hrd], by rw [hlk]; simp, ?_, ?_⟩
    · rw [hlk, hwr]
      simp
    · intro flags fi' res hW hO
      rw [File.Open_of_write env self s.file flags hW] at hO
      split at hO
      · rename_i hc
        rw [hc.1] at hlk
        have := congrArg RWMutex.readers hlk
        exact List.length_eq_zero.mp this.symm
      · cases hO
    · intro hne
      exact absurd hwr hne
  · have hwr : s.writers = [fd0] := by
      unfold Sys.writers
      rw [hl0]
      simp [hw0]
    have hrd : s.readers = [] := by
      unfold Sys.readers
      rw [hl0]
      simp [hw0]
    refine ⟨by rw [hwr]; simp, ?_, by rw [hlk, hrd]; rfl, by rw [hlk]; simp, ?_, fun _ => hrd⟩
    · rw [hlk, hwr]
      simp
    · intro flags fi' res hW hO
      rw [File.Open_of_write env self s.file flags hW] at hO
      split at hO
      · rename_i hc
        rw [hc.1] at hlk
        cases hlk
      · cases hO

/-- C8, at a concrete input: two `Open` calls with read set on a fresh file
over a structured node of kind file. -/
theorem desclock_invariant_witness :
    Sys.Reachable exampleEnv (specDescriptor exampleEnv) examplePtr
      (Sys.init "a" (.ProtoNode { Data := [2], cidVersion := 0 }) { handle := 1 } { handle := 2 })
      { file :=
          { exampleFile (.ProtoNode { Data := [2], cidVersion := 0 }) with
            desclock := { writer := false, readers := 2 } }
        live :=
          [{ inode := examplePtr, flags := { Read := true, Write := false, Sync := false }
             mod := DagModifier.mk (.ProtoNode { Data := [2], cidVersion := 0 }) { handle := 2 }
               false 0 },
           { inode := examplePtr, flags := { Read := true, Write := false, Sync := true }
             mod := DagModifier.mk (.ProtoNode { Data := [2], cidVersion := 0 }) { handle := 2 }
               false 0 }] } ∧
    (2 : Nat) = List.length (Sys.readers
      { file :=
          { exampleFile (.ProtoNode { Data := [2], cidVersion := 0 }) with
            desclock := { writer := false, readers := 2 } }
        live :=
          [{ inode := examplePtr, flags := { Read := true, Write := false, Sync := false }
             mod := DagModifier.mk (.ProtoNode { Data := [2], cidVersion := 0 }) { handle := 2 }
               false 0 },
           { inode := examplePtr, flags := { Read := true, Write := false, Sync := true }
             mod := DagModifier.mk (.ProtoNode { Data := [2], cidVersion := 0 }) { handle := 2 }
               false 0 }] }) :=
  have hreach : Sys.Reachable exampleEnv (specDescriptor exampleEnv) examplePtr
      (Sys.init "a" (.ProtoNode { Data := [2], cidVersion := 0 }) { handle := 1 } { handle := 2 })
      { file :=
          { exampleFile (.ProtoNode { Data := [2], cidVersion := 0 }) with
            desclock := { writer := false, readers := 2 } }
        live :=
          [{ inode := examplePtr, flags := { Read := true, Write := false, Sync := false }
             mod := DagModifier.mk (.ProtoNode { Data := [2], cidVersion := 0 }) { handle := 2 }
               false 0 },
           { inode := examplePtr, flags := { Read := true, Write := false, Sync := true }
             mod := DagModifier.mk (.ProtoNode { Data := [2], cidVersion := 0 }) { handle := 2 }
               false 0 }] } :=
    Relation.ReflTransGen.tail
      (Relation.ReflTransGen.single
        (Step.openOk _ { Read := true, Write := false, Sync := true } _ _ rfl))
      (Step.openOk _ { Read := true, Write := false, Sync := false } _ _ rfl)
  ⟨hreach, (desclock_invariant exampleEnv (specDescriptor exampleEnv) examplePtr
    (specDescriptor_closesOnce exampleEnv) _ _ _ _ _ hreach).2.2.1⟩

/-! ## `Open` with read set and write not set, on its error paths -/

/-- When `Open` is called with read set and write not set, gets through both
locks, and then reaches one of its `return nil, err` statements, the deferred
closure calls `Unlock` on a lock that is only read-locked: the call stops with
a run-time error in place of returning `err`. -/
theorem Open_readonly_error_faults (env : Env) (self : FilePtr) (fi : File) (flags : Flags)
    (hW : flags.Write = false) (hR : flags.Read = true)
    (hd : fi.desclock.writer = false) (hn : fi.nodelk.writer = false)
    (ofd : Option fileDescriptor) (err : Error)
    (hres : File.Open.result env self fi flags = (ofd, some err)) :
    File.Open env self fi flags = .runtimeError "sync: Unlock of unlocked RWMutex" := by
  rw [File.Open_of_read env self fi flags hW hR, if_pos ⟨hd, hn⟩, hres]

/-- With write set and both locks free, `Open` returns the error of its type
switch, or else the error of the factory, with the file as before the call;
when neither fails it returns the descriptor and keeps the lock. -/
theorem Open_of_write_free (env : Env) (self : FilePtr) (fi : File) (flags : Flags)
    (hW : flags.Write = true) (hd : fi.desclock = RWMutex.zero)
    (hn : fi.nodelk.writer = false) :
    (∀ err, File.Open.typeSwitch env fi.node = some err →
      File.Open env self fi flags = .returns fi (none, some err)) ∧
    (∀ code, File.Open.typeSwitch env fi.node = none →
      env.NewDagModifier fi.node fi.dserv = .error code →
      File.Open env self fi flags = .returns fi (none, some (.collaborator code))) ∧
    (∀ dmod, File.Open.typeSwitch env fi.node = none →
      env.NewDagModifier fi.node fi.dserv = .ok dmod →
      File.Open env self fi flags =
        .returns { fi with desclock := { writer := true, readers := 0 } }
          (some { inode := self, flags := flags, mod := { dmod with RawLeaves := fi.RawLeaves } },
            none)) := by
  rw [File.Open_of_write env self fi flags hW, if_pos ⟨hd, hn⟩]
  unfold File.Open.result
  refine ⟨?_, ?_, ?_⟩
  · intro err h
    rw [h]
  · intro code h hf
    rw [h]
    simp only [hf]
  · intro dmod h hf
    rw [h]
    simp only [hf]

/-- C1 at its failing input: a structured node that declares the kind
directory. The type switch yields `UnsupportedNodeKind`; opened with write
set the file returns that error and no descriptor; opened with read set and
write not set the call stops with a run-time error and returns nothing. -/
theorem Open_directory_readonly :
    File.Open.typeSwitch exampleEnv (.ProtoNode { Data := [1], cidVersion := 0 }) =
      some UnsupportedNodeKind ∧
    File.Open exampleEnv examplePtr (exampleFile (.ProtoNode { Data := [1], cidVersion := 0 }))
        { Read := true, Write := true, Sync := false } =
      .returns (exampleFile (.ProtoNode { Data := [1], cidVersion := 0 }))
        (none, some UnsupportedNodeKind) ∧
    File.Open exampleEnv examplePtr (exampleFile (.ProtoNode { Data := [1], cidVersion := 0 }))
        { Read := true, Write := false, Sync := false } =
      .runtimeError "sync: Unlock of unlocked RWMutex" := by
  refine ⟨rfl, rfl, rfl⟩

/-- C2 at its failing input, the spec's example: a symlink node opened with
flags read only. The descriptor lock is read-locked by `RLock` and the closure
deferred at line 55 calls `Unlock`, so the call stops with a run-time error:
no error is returned and the read lock is not released. With write set the
same file returns `UnsupportedFeature` with the lock as before. -/
theorem Open_symlink_readonly :
    File.Open exampleEnv examplePtr (exampleFile (.ProtoNode { Data := [4], cidVersion := 0 }))
        { Read := true, Write := false, Sync := false } =
      .runtimeError "sync: Unlock of unlocked RWMutex" ∧
    RWMutex.RLock (exampleFile (.ProtoNode { Data := [4], cidVersion := 0 })).desclock =
      some { writer := false, readers := 1 } ∧
    RWMutex.Unlock { writer := false, readers := 1 } =
      .error "sync: Unlock of unlocked RWMutex" ∧
    RWMutex.RUnlock { writer := false, readers := 1 } =
      .ok (exampleFile (.ProtoNode { Data := [4], cidVersion := 0 })).desclock ∧
    File.Open exampleEnv examplePtr (exampleFile (.ProtoNode { Data := [4], cidVersion := 0 }))
        { Read := false, Write := true, Sync := false } =
      .returns (exampleFile (.ProtoNode { Data := [4], cidVersion := 0 }))
        (none, some UnsupportedFeature) := by
  refine ⟨rfl, rfl, rfl, rfl, rfl⟩

/-- C10 at its failing input: a node of an unknown implementation on which the
factory fails with code 7, opened with flags read only. `Open` does not end
with the factory's error: the call stops with a run-time error. With write
set it returns the factory's error, and `Size` on the same file returns
`UnrecognizedNodeType`. -/
theorem Open_unknown_node_readonly :
    exampleEnv.NewDagModifier (.other 0 0) { handle := 2 } = .error 7 ∧
    File.Open exampleEnv examplePtr (exampleFile (.other 0 0))
        { Read := true, Write := false, Sync := false } =
      .runtimeError "sync: Unlock of unlocked RWMutex" ∧
    File.Open exampleEnv examplePtr (exampleFile (.other 0 0))
        { Read := false, Write := true, Sync := false } =
      .returns (exampleFile (.other 0 0)) (none, some (.collaborator 7)) ∧
    File.Size exampleEnv (exampleFile (.other 0 0)) =
      .returns (exampleFile (.other 0 0)) (0, some UnrecognizedNodeType) := by
  refine ⟨rfl, rfl, rfl, rfl⟩

/-- On a node that is neither structured nor raw the type switch of `Open`
checks nothing, while `Size` returns `UnrecognizedNodeType`; there is a file
that `Open` opens and whose `Size` is an error. -/
theorem Open_and_Size_on_unknown_node (env : Env) (tag v : Nat) :
    File.Open.typeSwitch env (.other tag v) = none ∧
    File.Size.typeSwitch env (.other tag v) = (0, some UnrecognizedNodeType) ∧
    (∃ (fd : fileDescriptor) (fi' : File),
      File.Open exampleEnv examplePtr (exampleFile (.other 1 0))
          { Read := true, Write := false, Sync := false } =
        .returns fi' (some fd, none) ∧
      File.Size exampleEnv (exampleFile (.other 1 0)) =
        .returns (exampleFile (.other 1 0)) (0, some UnrecognizedNodeType)) :=
  ⟨rfl, rfl, _, _, rfl, rfl⟩

end Mfs
